import Mathlib

/-! Verification of the calendar and dashboard logic of the task-management
web client (frontend/src/components/Calendar.js, Dashboard.js, App.js).

JavaScript `Date` values are modelled as integers counting calendar days
since 1970-01-01 in the proleptic Gregorian calendar, with local time
identified with UTC and the time-of-day component dropped (no claim in
scope depends on it).  The `Date` constructor's month/day overflow
normalisation, `getDate`/`getDay`/`getMonth`/`getFullYear`/`setMonth` and
the date part of `toISOString` are modelled by executable functions below,
following the standard civil-calendar day-number construction. -/

namespace TaskHub

/-- Gregorian leap-year predicate, as JavaScript `Date` arithmetic
implements it. -/
def isLeap (y : Int) : Bool :=
  y % 4 == 0 && (y % 100 != 0 || y % 400 == 0)

/-- Number of days in 1-based month `m` of a year whose leap flag is
`leap`. -/
def mdays (leap : Bool) (m : Nat) : Nat :=
  if m = 2 then (if leap then 29 else 28)
  else if m = 4 ∨ m = 6 ∨ m = 9 ∨ m = 11 then 30
  else 31

/-- Day-of-era of the first day of March-based year-of-era `yoe`
(0 ≤ yoe ≤ 400; day 0 of the era is March 1 of a year divisible by 400). -/
def yearStart (yoe : Nat) : Nat :=
  365 * yoe + yoe / 4 - yoe / 100 + yoe / 400

/-- Year-of-era of a day-of-era (0 ≤ doe < 146097). -/
def yoeOfDoe (doe : Nat) : Nat :=
  (doe - doe / 1460 + doe / 36524 - doe / 146096) / 365

/-- Day-of-year (March-based, 0-based) of the first day of March-based
month `mp` (0 = March, ..., 11 = February). -/
def doyStart (mp : Nat) : Nat := (153 * mp + 2) / 5

/-- March-based month of a March-based day-of-year (0 ≤ doy ≤ 365). -/
def mpOfDoy (doy : Nat) : Nat := (5 * doy + 2) / 153

/-- March-based shifted year of 1-based month `m` of civil year `y`. -/
def monthYear (y : Int) (m : Nat) : Int := if m ≤ 2 then y - 1 else y

/-- March-based month index of 1-based civil month `m`. -/
def monthMp (m : Nat) : Nat := if m ≤ 2 then m + 9 else m - 3

/-- Day number (days since 1970-01-01) of the first day of 1-based month
`m` (1 ≤ m ≤ 12) of year `y`. -/
def firstDayNumber (y : Int) (m : Nat) : Int :=
  (monthYear y m / 400) * 146097
    + ((yearStart ((monthYear y m % 400).toNat) + doyStart (monthMp m) : Nat) : Int)
    - 719468

/-- JavaScript `new Date(y, m, d)` with 0-based month `m`; both `m` and
`d` may lie outside their nominal ranges and are normalised by overflow,
exactly as the `Date` constructor does. -/
def mkDate (y m d : Int) : Int :=
  firstDayNumber (y + m / 12) ((m % 12).toNat + 1) + (d - 1)

/-- Era (400-year block) of a day number. -/
def eraOfDays (z : Int) : Int := (z + 719468) / 146097

/-- Day-of-era of a day number. -/
def doeOfDays (z : Int) : Nat := ((z + 719468) % 146097).toNat

/-- Year-of-era of a day number. -/
def yoeOfDays (z : Int) : Nat := yoeOfDoe (doeOfDays z)

/-- March-based day-of-year of a day number. -/
def doyOfDays (z : Int) : Nat := doeOfDays z - yearStart (yoeOfDays z)

/-- March-based month of a day number. -/
def mpOfDays (z : Int) : Nat := mpOfDoy (doyOfDays z)

/-- 1-based civil month of a day number
(JavaScript `getMonth()` returns this minus one). -/
def monthOfDays (z : Int) : Nat :=
  if mpOfDays z < 10 then mpOfDays z + 3 else mpOfDays z - 9

/-- 1-based day of month of a day number (JavaScript `getDate()`). -/
def dayOfDays (z : Int) : Nat := doyOfDays z - doyStart (mpOfDays z) + 1

/-- Civil year of a day number (JavaScript `getFullYear()`). -/
def yearOfDays (z : Int) : Int :=
  (yoeOfDays z : Int) + eraOfDays z * 400 + (if monthOfDays z ≤ 2 then 1 else 0)

/-- JavaScript `Date.prototype.getFullYear`. -/
def getFullYear (z : Int) : Int := yearOfDays z

/-- JavaScript `Date.prototype.getMonth` (0-based month). -/
def getMonth (z : Int) : Nat := monthOfDays z - 1

/-- JavaScript `Date.prototype.getDate` (1-based day of month). -/
def getDate (z : Int) : Nat := dayOfDays z

/-- JavaScript `Date.prototype.getDay`: weekday with 0 = Sunday
(1970-01-01 was a Thursday). -/
def getDay (z : Int) : Nat := ((z + 4) % 7).toNat

/-- ASCII digit character for `n % 10`. -/
def digitChar (n : Nat) : Char := Char.ofNat (48 + n % 10)

/-- Big-endian decimal digit characters of `n` (empty for `n = 0`);
`fuel`-bounded structural recursion, valid whenever `n ≤ fuel`. -/
def digitsBE : Nat → Nat → List Char
  | 0, _ => []
  | fuel + 1, n => if n = 0 then [] else digitsBE fuel (n / 10) ++ [digitChar (n % 10)]

/-- Decimal representation of `n` left-padded with zeros to width `w`. -/
def padDigits (w n : Nat) : List Char :=
  List.replicate (w - (digitsBE n n).length) '0' ++ digitsBE n n

/-- Decimal value of a big-endian digit-character list (decoding helper
used to reason about the date keys). -/
def decVal (cs : List Char) : Nat :=
  cs.foldl (fun a c => 10 * a + (c.toNat - 48)) 0

/-- Character list of the date part of JavaScript
`Date.prototype.toISOString` for a day number: `YYYY-MM-DD` for years
0..9999 and the expanded `±YYYYYY-MM-DD` form otherwise. -/
def isoChars (z : Int) : List Char :=
  (if 0 ≤ yearOfDays z ∧ yearOfDays z < 10000 then padDigits 4 (yearOfDays z).toNat
   else if yearOfDays z < 0 then '-' :: padDigits 6 (-(yearOfDays z)).toNat
   else '+' :: padDigits 6 (yearOfDays z).toNat)
  ++ '-' :: (padDigits 2 (monthOfDays z) ++ '-' :: padDigits 2 (dayOfDays z))

/-- Model of `date.toISOString().split('T')[0]` (Calendar.js lines 46
and 90): the normalised `YYYY-MM-DD` key of a day number. -/
def toISODate (z : Int) : String := ⟨isoChars z⟩

/-- JavaScript `String.prototype.trim`: strip leading and trailing
whitespace (modelled over the character list so that it is executable). -/
def trimString (s : String) : String :=
  ⟨((s.data.dropWhile Char.isWhitespace).reverse.dropWhile Char.isWhitespace).reverse⟩

/-- Task records as delivered by the API and consumed by the client. -/
structure Task where
  id : String
  title : String
  description : Option String
  priority : String
  status : String
  due_date : Option String
deriving DecidableEq

/-- One entry of the calendar grid (Calendar.js lines 71, 76, 83):
a date plus the current-month membership flag. -/
structure CalendarDayCell where
  date : Int
  isCurrentMonth : Bool
deriving DecidableEq

/-- `getDaysInMonth` (Calendar.js lines 58-87).  The source receives a
`Date` and reads `year = date.getFullYear()`, `month = date.getMonth()`
(lines 59-60); here the extracted year and 0-based month are taken
directly.  `firstDay` is `new Date(year, month, 1)`, `lastDay` is
`new Date(year, month + 1, 0)`, `daysInMonth = lastDay.getDate()`,
`startingDayOfWeek = firstDay.getDay()`; then the three loops of the
source build the leading, current-month and trailing cells. -/
def getDaysInMonth (year : Int) (month : Nat) : List CalendarDayCell :=
  let firstDay : Int := mkDate year (month : Int) 1
  let lastDay : Int := mkDate year ((month : Int) + 1) 0
  let daysInMonth : Nat := getDate lastDay
  let startingDayOfWeek : Nat := getDay firstDay
  let leading : List CalendarDayCell := (List.range startingDayOfWeek).map fun (i : Nat) =>
    ⟨mkDate year (month : Int) (-(startingDayOfWeek : Int) + (i : Int) + 1), false⟩
  let current : List CalendarDayCell := (List.range daysInMonth).map fun (k : Nat) =>
    ⟨mkDate year (month : Int) ((k : Int) + 1), true⟩
  let days := leading ++ current
  let remainingCells : Nat := 42 - days.length
  let trailing : List CalendarDayCell := (List.range remainingCells).map fun (i : Nat) =>
    ⟨mkDate year ((month : Int) + 1) ((i : Int) + 1), false⟩
  days ++ trailing

/-- `getTasksForDate` (Calendar.js lines 89-92): the tasks whose
`due_date` equals the normalised date key of the given day. -/
def getTasksForDate (tasks : List Task) (date : Int) : List Task :=
  tasks.filter fun task => task.due_date == some (toISODate date)

/-- `navigateMonth` (Calendar.js lines 94-98): copy the current date and
call `setMonth(currentDate.getMonth() + direction)`; JavaScript
`setMonth` keeps the day of month and normalises overflow. -/
def navigateMonth (currentDate : Int) (direction : Int) : Int :=
  mkDate (getFullYear currentDate) (((getMonth currentDate : Int)) + direction)
    (getDate currentDate)

/-- The `newTask` form state (Calendar.js lines 12-16). -/
structure NewTaskForm where
  title : String
  description : String
  priority : String
deriving DecidableEq

/-- The initial / reset form value `{title: "", description: "",
priority: "medium"}`. -/
def initialNewTask : NewTaskForm := ⟨"", "", "medium"⟩

/-- Local state of the Calendar component (Calendar.js lines 8-17);
`currentDate` is a day number, `selectedDate` the clicked day. -/
structure CalendarState where
  currentDate : Int
  tasks : List Task
  selectedDate : Option Int
  showTaskModal : Bool
  newTask : NewTaskForm
deriving DecidableEq

/-- Body of the `POST /tasks` request issued by `createTask`
(Calendar.js lines 44-47). -/
structure TaskPost where
  title : String
  description : String
  priority : String
  due_date : String
deriving DecidableEq

/-- `createTask` (Calendar.js lines 40-56).  Output: the request sent (if
any), the state after the handler, and whether `fetchCalendarTasks` was
triggered.  The guard mirrors
`if (!newTask.title.trim() || !selectedDate) return;`; on a successful
response the form is reset, the modal dismissed, the selected date
cleared and a refetch triggered; on a failed response the error is only
logged. -/
def createTask (st : CalendarState) (response : Except String Unit) :
    Option TaskPost × CalendarState × Bool :=
  if trimString st.newTask.title = "" ∨ st.selectedDate = none then (none, st, false)
  else
    match st.selectedDate with
    | none => (none, st, false)
    | some sel =>
      let req : TaskPost :=
        ⟨st.newTask.title, st.newTask.description, st.newTask.priority, toISODate sel⟩
      match response with
      | Except.ok _ =>
        (some req,
         { st with newTask := initialNewTask, showTaskModal := false, selectedDate := none },
         true)
      | Except.error _ => (some req, st, false)

/-- `handleDateClick` (Calendar.js lines 105-109): ignore clicks on
cells outside the displayed month, otherwise select the date and open
the modal. -/
def handleDateClick (st : CalendarState) (day : CalendarDayCell) : CalendarState :=
  if !day.isCurrentMonth then st
  else { st with selectedDate := some day.date, showTaskModal := true }

/-- The tasks actually rendered in a day cell: `dayTasks.slice(0, 3)`
(Calendar.js line 186). -/
def visibleDayTasks (dayTasks : List Task) : List Task := dayTasks.take 3

/-- The overflow indicator of a day cell: `+{dayTasks.length - 3} more`
shown when `dayTasks.length > 3` (Calendar.js lines 192-196). -/
def overflowCount (dayTasks : List Task) : Option Nat :=
  if dayTasks.length > 3 then some (dayTasks.length - 3) else none

/-- Dashboard statistics snapshot (Dashboard.js lines 8-14). -/
structure DashboardStats where
  total_tasks : Nat
  completed_tasks : Nat
  pending_tasks : Nat
  overdue_tasks : Nat
  today_tasks : Nat
deriving DecidableEq

/-- Local state of the Dashboard component (Dashboard.js lines 8-17). -/
structure DashboardState where
  stats : DashboardStats
  recentTasks : List Task
  upcomingTasks : List Task
  loading : Bool
deriving DecidableEq

/-- `fetchDashboardData` (Dashboard.js lines 23-40): `Promise.all` on
the three requests; the three setters run only when every request
succeeded, otherwise the catch block logs and the state (except the
loading flag, cleared in `finally`) is kept. -/
def fetchDashboardData (st : DashboardState)
    (statsResponse : Except String DashboardStats)
    (recentResponse : Except String (List Task))
    (upcomingResponse : Except String (List Task)) : DashboardState :=
  match statsResponse, recentResponse, upcomingResponse with
  | Except.ok s, Except.ok r, Except.ok u =>
    { stats := s, recentTasks := r, upcomingTasks := u, loading := false }
  | _, _, _ => { st with loading := false }

/-- Actual length of 0-based month `month` of year `year` (28/29/30/31,
leap years included): the specification value the grid is checked
against. -/
def daysInMonthSpec (year : Int) (month : Nat) : Nat :=
  mdays (isLeap year) (month + 1)

/-! Arithmetic facts about the civil-calendar construction. -/

set_option maxRecDepth 8000 in
/-- Within an era the 400 year starts recover their year-of-era:
verified pointwise over the 400 years of one era. -/
theorem yoe_boundary : ∀ y : Fin 400,
    yoeOfDoe (yearStart y.val) = y.val ∧ yoeOfDoe (yearStart (y.val + 1) - 1) = y.val := by
  decide

set_option maxRecDepth 8000 in
/-- Month extraction bounds, verified pointwise over the 366 possible
days of a year. -/
theorem mp_extract : ∀ doy : Fin 366,
    mpOfDoy doy.val ≤ 11 ∧ doyStart (mpOfDoy doy.val) ≤ doy.val
      ∧ doy.val - doyStart (mpOfDoy doy.val) ≤ 30 := by
  decide

/-- Month extraction is a left inverse of month layout, verified
pointwise over every (March-based month, day offset) pair. -/
theorem mp_fwd : ∀ mp : Fin 12, ∀ k : Fin 31,
    (mp.val ≤ 10 → doyStart mp.val + k.val < doyStart (mp.val + 1)) →
    (mp.val = 11 → k.val ≤ 28) →
    mpOfDoy (doyStart mp.val + k.val) = mp.val := by
  decide

/-- For every month other than February, the civil month length equals
the gap between consecutive March-based month starts. -/
theorem mdays_doyStart_eq : ∀ m : Fin 13, 1 ≤ m.val → m.val ≠ 2 → ∀ leap : Bool,
    doyStart (monthMp m.val + 1) = doyStart (monthMp m.val) + mdays leap m.val := by
  decide

theorem mdays_le31 (leap : Bool) (m : Nat) : mdays leap m ≤ 31 := by
  unfold mdays
  split
  · split <;> omega
  · split <;> omega

theorem mdays_ge28 (leap : Bool) (m : Nat) : 28 ≤ mdays leap m := by
  unfold mdays
  split
  · split <;> omega
  · split <;> omega

theorem yearStart_gap (y : Nat) :
    yearStart y + 365 ≤ yearStart (y + 1) ∧ yearStart (y + 1) ≤ yearStart y + 366 := by
  unfold yearStart
  omega

theorem yoeOfDoe_mono : Monotone yoeOfDoe := by
  apply monotone_nat_of_le_succ
  intro n
  unfold yoeOfDoe
  omega

/-- Every day-of-era lies in the span of some year-of-era. -/
theorem exists_bracket : ∀ doe : Nat, doe < 146097 →
    ∃ y, y ≤ 399 ∧ yearStart y ≤ doe ∧ doe < yearStart (y + 1) := by
  intro doe
  induction doe with
  | zero => exact fun _ => ⟨0, by decide⟩
  | succ n ih =>
    intro h
    obtain ⟨y, hy, h1, h2⟩ := ih (by omega)
    by_cases hc : n + 1 < yearStart (y + 1)
    · exact ⟨y, hy, by omega, hc⟩
    · have he : n + 1 = yearStart (y + 1) := by omega
      have hy399 : y + 1 ≤ 399 := by
        by_contra hgt
        have hy4 : y + 1 = 400 := by omega
        rw [hy4] at he
        have : yearStart 400 = 146097 := by decide
        omega
      have hgap := yearStart_gap (y + 1)
      exact ⟨y + 1, hy399, by omega, by omega⟩

theorem yoeOfDoe_eq (doe y : Nat) (hy : y ≤ 399) (h1 : yearStart y ≤ doe)
    (h2 : doe < yearStart (y + 1)) : yoeOfDoe doe = y := by
  have hb := yoe_boundary ⟨y, by omega⟩
  have m1 := yoeOfDoe_mono h1
  have m2 := yoeOfDoe_mono (show doe ≤ yearStart (y + 1) - 1 by omega)
  simp only at hb m1 m2
  omega

/-- The year-of-era formula is correct: it brackets every day-of-era
between its year start and the next year start. -/
theorem yoe_main (doe : Nat) (h : doe < 146097) :
    yearStart (yoeOfDoe doe) ≤ doe ∧ doe < yearStart (yoeOfDoe doe + 1)
      ∧ yoeOfDoe doe ≤ 399 := by
  obtain ⟨y, hy, h1, h2⟩ := exists_bracket doe h
  have he := yoeOfDoe_eq doe y hy h1 h2
  rw [he]
  exact ⟨h1, h2, hy⟩

theorem isLeap_iff (y : Int) :
    isLeap y = true ↔ (y % 4 = 0 ∧ (y % 100 ≠ 0 ∨ y % 400 = 0)) := by
  unfold isLeap
  simp [Bool.and_eq_true, Bool.or_eq_true]

theorem mp_extract_nat (doy : Nat) (h : doy ≤ 365) :
    mpOfDoy doy ≤ 11 ∧ doyStart (mpOfDoy doy) ≤ doy ∧ doy - doyStart (mpOfDoy doy) ≤ 30 :=
  mp_extract ⟨doy, by omega⟩

theorem mp_fwd_nat (mp k : Nat) (hmp : mp ≤ 11) (hk : k ≤ 30)
    (h1 : mp ≤ 10 → doyStart mp + k < doyStart (mp + 1)) (h2 : mp = 11 → k ≤ 28) :
    mpOfDoy (doyStart mp + k) = mp :=
  mp_fwd ⟨mp, by omega⟩ ⟨k, by omega⟩ h1 h2

theorem mdays_doyStart_nat (m : Nat) (h1 : 1 ≤ m) (h2 : m ≤ 12) (h3 : m ≠ 2) (leap : Bool) :
    doyStart (monthMp m + 1) = doyStart (monthMp m) + mdays leap m :=
  mdays_doyStart_eq ⟨m, by omega⟩ h1 h3 leap

theorem doeOfDays_spec (z : Int) :
    (doeOfDays z : Int) = z + 719468 - eraOfDays z * 146097 ∧ doeOfDays z < 146097 := by
  unfold doeOfDays eraOfDays
  omega

theorem yoe_days_main (z : Int) :
    yearStart (yoeOfDays z) ≤ doeOfDays z
      ∧ doeOfDays z < yearStart (yoeOfDays z + 1) ∧ yoeOfDays z ≤ 399 :=
  yoe_main (doeOfDays z) (doeOfDays_spec z).2

theorem doyOfDays_le (z : Int) : doyOfDays z ≤ 365 := by
  have h := yoe_days_main z
  have hg := yearStart_gap (yoeOfDays z)
  unfold doyOfDays
  omega

theorem mpOfDays_le11 (z : Int) : mpOfDays z ≤ 11 :=
  (mp_extract_nat (doyOfDays z) (doyOfDays_le z)).1

theorem civil_bounds (z : Int) :
    1 ≤ monthOfDays z ∧ monthOfDays z ≤ 12 ∧ 1 ≤ dayOfDays z ∧ dayOfDays z ≤ 31 := by
  have h := mp_extract_nat (doyOfDays z) (doyOfDays_le z)
  unfold monthOfDays dayOfDays mpOfDays
  unfold mpOfDays at h
  split_ifs <;> omega

theorem monthMp_monthOfDays (z : Int) : monthMp (monthOfDays z) = mpOfDays z := by
  have h := mpOfDays_le11 z
  unfold monthMp monthOfDays
  split_ifs <;> omega

theorem monthYear_yearOfDays (z : Int) :
    monthYear (yearOfDays z) (monthOfDays z) = (yoeOfDays z : Int) + eraOfDays z * 400 := by
  unfold monthYear yearOfDays
  split_ifs <;> omega

theorem firstDayNumber_civil (z : Int) :
    firstDayNumber (yearOfDays z) (monthOfDays z)
      = eraOfDays z * 146097
        + ((yearStart (yoeOfDays z) + doyStart (mpOfDays z) : Nat) : Int) - 719468 := by
  have hy := yoe_days_main z
  unfold firstDayNumber
  rw [monthYear_yearOfDays, monthMp_monthOfDays]
  have h1 : ((yoeOfDays z : Int) + eraOfDays z * 400) / 400 = eraOfDays z := by omega
  have h2 : (((yoeOfDays z : Int) + eraOfDays z * 400) % 400).toNat = yoeOfDays z := by omega
  rw [h1, h2]

/-- Backward round trip: every day number is rebuilt from its civil
components. -/
theorem civil_inv (z : Int) :
    firstDayNumber (yearOfDays z) (monthOfDays z) + ((dayOfDays z : Int) - 1) = z := by
  rw [firstDayNumber_civil]
  have hdoe := doeOfDays_spec z
  have hy := yoe_days_main z
  have hmp := mp_extract_nat (doyOfDays z) (doyOfDays_le z)
  have hdoy : doyOfDays z = doeOfDays z - yearStart (yoeOfDays z) := rfl
  have hday : dayOfDays z = doyOfDays z - doyStart (mpOfDays z) + 1 := rfl
  have hmpd : mpOfDays z = mpOfDoy (doyOfDays z) := rfl
  rw [← hmpd] at hmp
  omega

theorem yearStart_mono (a b : Nat) (h : a ≤ b) : yearStart a ≤ yearStart b :=
  monotone_nat_of_le_succ (fun n => by have := yearStart_gap n; omega) h

/-- Forward round trip: the civil components of a valid date's day
number are the original year, month and day. -/
theorem civil_fwd (y : Int) (m d : Nat) (hm1 : 1 ≤ m) (hm2 : m ≤ 12)
    (hd1 : 1 ≤ d) (hd2 : d ≤ mdays (isLeap y) m) :
    yearOfDays (firstDayNumber y m + ((d : Int) - 1)) = y
      ∧ monthOfDays (firstDayNumber y m + ((d : Int) - 1)) = m
      ∧ dayOfDays (firstDayNumber y m + ((d : Int) - 1)) = d := by
  set z : Int := firstDayNumber y m + ((d : Int) - 1) with hz
  obtain ⟨era, yoe, hera, hyoe, hyoe_le⟩ : ∃ era : Int, ∃ yoe : Nat,
      monthYear y m = era * 400 + (yoe : Int)
        ∧ (monthYear y m % 400).toNat = yoe ∧ yoe ≤ 399 :=
    ⟨monthYear y m / 400, (monthYear y m % 400).toNat, by omega, rfl, by omega⟩
  have hdiv : monthYear y m / 400 = era := by omega
  have hfdn : firstDayNumber y m
      = era * 146097 + ((yearStart yoe + doyStart (monthMp m) : Nat) : Int) - 719468 := by
    unfold firstDayNumber
    rw [hdiv, hyoe]
  have hmp_le : monthMp m ≤ 11 := by
    unfold monthMp
    split_ifs <;> omega
  have hds337 : doyStart (monthMp m) ≤ 337 := by
    unfold doyStart
    omega
  have hfeb : monthMp m = 11 → m = 2 := by
    unfold monthMp
    split_ifs <;> omega
  have hd31 : d ≤ 31 := le_trans hd2 (mdays_le31 _ _)
  have hdfeb : monthMp m = 11 → d ≤ 29 := by
    intro h11
    have h2eq := hfeb h11
    subst h2eq
    cases hL : isLeap y
    · rw [hL] at hd2
      have : mdays false 2 = 28 := rfl
      omega
    · rw [hL] at hd2
      have : mdays true 2 = 29 := rfl
      omega
  have hgap := yearStart_gap yoe
  have hzval : z + 719468
      = era * 146097 + ((yearStart yoe + doyStart (monthMp m) + (d - 1) : Nat) : Int) := by
    rw [hz, hfdn]
    omega
  have hDT : yearStart yoe + doyStart (monthMp m) + (d - 1) < 146097 := by
    by_cases h398 : yoe ≤ 398
    · have h1 := yearStart_mono yoe 398 h398
      have h2 : yearStart 398 = 145366 := by decide
      omega
    · have h399 : yoe = 399 := by omega
      have h2 : yearStart 399 = 145731 := by decide
      by_cases hmp11 : monthMp m = 11
      · have hd29 := hdfeb hmp11
        have h3 : doyStart 11 = 337 := rfl
        rw [h399, hmp11]
        omega
      · have hmp10 : monthMp m ≤ 10 := by omega
        have h3 : doyStart (monthMp m) ≤ 306 := by
          unfold doyStart
          omega
        rw [h399]
        omega
  have hera2 : eraOfDays z = era := by
    unfold eraOfDays
    omega
  have hdoe2 : doeOfDays z = yearStart yoe + doyStart (monthMp m) + (d - 1) := by
    unfold doeOfDays
    omega
  have hupper : doeOfDays z < yearStart (yoe + 1) := by
    rw [hdoe2]
    by_cases hmp11 : monthMp m = 11
    · rw [hmp11]
      have h3 : doyStart 11 = 337 := rfl
      cases hL : isLeap y
      · have h2eq := hfeb hmp11
        have hd28 : d ≤ 28 := by
          rw [h2eq] at hd2
          rw [hL] at hd2
          have : mdays false 2 = 28 := rfl
          omega
        omega
      · have h2eq := hfeb hmp11
        have hleap := (isLeap_iff y).mp hL
        have hy_eq : y = era * 400 + (yoe : Int) + 1 := by
          rw [h2eq] at hera
          unfold monthYear at hera
          norm_num at hera
          omega
        have h366 : yearStart yoe + 366 ≤ yearStart (yoe + 1) := by
          unfold yearStart
          omega
        have hd29 := hdfeb hmp11
        omega
    · have hmp10 : monthMp m ≤ 10 := by omega
      have h3 : doyStart (monthMp m) ≤ 306 := by
        unfold doyStart
        omega
      omega
  have hyoe2 : yoeOfDays z = yoe := by
    unfold yoeOfDays
    exact yoeOfDoe_eq _ yoe hyoe_le (by rw [hdoe2]; omega) hupper
  have hdoy2 : doyOfDays z = doyStart (monthMp m) + (d - 1) := by
    unfold doyOfDays
    rw [hdoe2, hyoe2]
    omega
  have hmp2 : mpOfDays z = monthMp m := by
    unfold mpOfDays
    rw [hdoy2]
    apply mp_fwd_nat (monthMp m) (d - 1) hmp_le (by omega)
    · intro h10
      have hne2 : m ≠ 2 := by
        intro he
        rw [he] at h10
        have : monthMp 2 = 11 := rfl
        omega
      have hds := mdays_doyStart_nat m hm1 hm2 hne2 (isLeap y)
      omega
    · intro h11
      have := hdfeb h11
      omega
  have hday2 : dayOfDays z = d := by
    unfold dayOfDays
    rw [hdoy2, hmp2]
    omega
  have hmonth2 : monthOfDays z = m := by
    unfold monthOfDays
    rw [hmp2]
    unfold monthMp
    split_ifs <;> omega
  have hyear2 : yearOfDays z = y := by
    unfold yearOfDays
    rw [hyoe2, hera2, hmonth2]
    unfold monthYear at hera
    split_ifs at hera ⊢ <;> omega
  exact ⟨hyear2, hmonth2, hday2⟩

theorem firstDayNumber_jan (y : Int) :
    firstDayNumber (y + 1) 1 = firstDayNumber y 12 + 31 := by
  have h1 : monthYear (y + 1) 1 = y := by unfold monthYear; norm_num
  have h2 : monthYear y 12 = y := by unfold monthYear; norm_num
  have h3 : monthMp 1 = 10 := rfl
  have h4 : monthMp 12 = 9 := rfl
  unfold firstDayNumber
  rw [h1, h2, h3, h4]
  have h5 : doyStart 10 = 306 := rfl
  have h6 : doyStart 9 = 275 := rfl
  rw [h5, h6]
  omega

theorem firstDayNumber_march (y : Int) :
    firstDayNumber y 3 = firstDayNumber y 2 + (mdays (isLeap y) 2 : Int) := by
  have h1 : monthYear y 3 = y := by unfold monthYear; norm_num
  have h2 : monthYear y 2 = y - 1 := by unfold monthYear; norm_num
  have h3 : monthMp 3 = 0 := rfl
  have h4 : monthMp 2 = 11 := rfl
  unfold firstDayNumber
  rw [h1, h2, h3, h4]
  have h5 : doyStart 0 = 0 := rfl
  have h6 : doyStart 11 = 337 := rfl
  rw [h5, h6]
  cases hL : isLeap y
  · have hL2 : ¬(y % 4 = 0 ∧ (y % 100 ≠ 0 ∨ y % 400 = 0)) := by
      intro hc
      have := (isLeap_iff y).mpr hc
      rw [hL] at this
      exact Bool.false_ne_true this
    have hmd : mdays false 2 = 28 := rfl
    rw [hmd]
    unfold yearStart
    omega
  · have hL2 := (isLeap_iff y).mp hL
    have hmd : mdays true 2 = 29 := rfl
    rw [hmd]
    unfold yearStart
    omega

theorem firstDayNumber_succ (y : Int) (m : Nat) (hm1 : 1 ≤ m) (hm2 : m ≤ 11) :
    firstDayNumber y (m + 1) = firstDayNumber y m + (mdays (isLeap y) m : Int) := by
  rcases Nat.lt_or_ge m 3 with h3 | h3
  · interval_cases m
    · have h1 : monthYear y 2 = y - 1 := by unfold monthYear; norm_num
      have h2 : monthYear y 1 = y - 1 := by unfold monthYear; norm_num
      unfold firstDayNumber
      rw [h1, h2]
      have h4 : monthMp 2 = 11 := rfl
      have h5 : monthMp 1 = 10 := rfl
      rw [h4, h5]
      have h6 : doyStart 11 = 337 := rfl
      have h7 : doyStart 10 = 306 := rfl
      rw [h6, h7]
      have h8 : mdays (isLeap y) 1 = 31 := rfl
      rw [h8]
      omega
    · exact firstDayNumber_march y
  · have hne2 : m ≠ 2 := by omega
    have hmy1 : monthYear y (m + 1) = y := by unfold monthYear; split_ifs <;> omega
    have hmy2 : monthYear y m = y := by unfold monthYear; split_ifs <;> omega
    have hmp_succ : monthMp (m + 1) = monthMp m + 1 := by
      unfold monthMp
      split_ifs <;> omega
    have hds := mdays_doyStart_nat m hm1 (by omega) hne2 (isLeap y)
    unfold firstDayNumber
    rw [hmy1, hmy2, hmp_succ, hds]
    omega

theorem mkDate_month_eq (y : Int) (m0 : Nat) (h : m0 ≤ 11) (d : Int) :
    mkDate y (m0 : Int) d = firstDayNumber y (m0 + 1) + (d - 1) := by
  unfold mkDate
  have h1 : (m0 : Int) / 12 = 0 := by omega
  have h2 : ((m0 : Int) % 12).toNat = m0 := by omega
  rw [h1, h2, add_zero]

theorem mkDate_next (y : Int) (m0 : Nat) (h : m0 ≤ 10) (d : Int) :
    mkDate y ((m0 : Int) + 1) d = firstDayNumber y (m0 + 1 + 1) + (d - 1) := by
  unfold mkDate
  have h1 : ((m0 : Int) + 1) / 12 = 0 := by omega
  have h2 : (((m0 : Int) + 1) % 12).toNat = m0 + 1 := by omega
  rw [h1, h2, add_zero]

theorem mkDate_dec (y : Int) (d : Int) :
    mkDate y (((11 : Nat) : Int) + 1) d = firstDayNumber (y + 1) 1 + (d - 1) := by
  unfold mkDate
  norm_num

/-- The day count the source computes from `new Date(year, month + 1, 0)`
equals the true length of the displayed month. -/
theorem computed_daysInMonth (y : Int) (m0 : Nat) (h : m0 ≤ 11) :
    getDate (mkDate y ((m0 : Int) + 1) 0) = daysInMonthSpec y m0 := by
  have hge := mdays_ge28 (isLeap y) (m0 + 1)
  have hfwd := civil_fwd y (m0 + 1) (mdays (isLeap y) (m0 + 1)) (by omega) (by omega)
    (by omega) le_rfl
  rcases Nat.lt_or_ge m0 11 with h10 | h11
  · rw [mkDate_next y m0 (by omega) 0]
    have hsucc := firstDayNumber_succ y (m0 + 1) (by omega) (by omega)
    have heq : firstDayNumber y (m0 + 1 + 1) + ((0 : Int) - 1)
        = firstDayNumber y (m0 + 1) + ((mdays (isLeap y) (m0 + 1) : Int) - 1) := by
      rw [hsucc]
      ring
    rw [heq]
    exact hfwd.2.2
  · have hm0 : m0 = 11 := by omega
    subst hm0
    rw [mkDate_dec]
    have hjan := firstDayNumber_jan y
    have hmd12 : mdays (isLeap y) 12 = 31 := rfl
    have heq : firstDayNumber (y + 1) 1 + ((0 : Int) - 1)
        = firstDayNumber y (11 + 1) + ((mdays (isLeap y) (11 + 1) : Int) - 1) := by
      have h12 : (11 : Nat) + 1 = 12 := rfl
      rw [h12, hjan, hmd12]
      ring
    rw [heq]
    exact hfwd.2.2

theorem mkDate_shift (y m d : Int) : mkDate y m d = mkDate y m 1 + (d - 1) := by
  unfold mkDate
  ring

/-- The first day of the following month is the first day of the
displayed month plus the month's true length. -/
theorem first_next (y : Int) (m0 : Nat) (h : m0 ≤ 11) :
    mkDate y ((m0 : Int) + 1) 1 = mkDate y (m0 : Int) 1 + (daysInMonthSpec y m0 : Int) := by
  unfold daysInMonthSpec
  rcases Nat.lt_or_ge m0 11 with h10 | h11
  · rw [mkDate_next y m0 (by omega) 1, mkDate_month_eq y m0 (by omega) 1]
    have hsucc := firstDayNumber_succ y (m0 + 1) (by omega) (by omega)
    omega
  · have hm0 : m0 = 11 := by omega
    subst hm0
    rw [mkDate_dec, mkDate_month_eq y 11 (by omega) 1]
    have hjan := firstDayNumber_jan y
    have h12 : (11 : Nat) + 1 = 12 := rfl
    rw [h12, hjan]
    have hmd12 : mdays (isLeap y) 12 = 31 := rfl
    rw [hmd12]
    omega

/-- Normal form of the grid: leading cells, current-month cells and
trailing cells, with explicit consecutive dates. -/
theorem getDaysInMonth_shape (y : Int) (m0 : Nat) (h : m0 ≤ 11) :
    getDaysInMonth y m0 =
      (((List.range (getDay (mkDate y (m0 : Int) 1))).map fun (i : Nat) =>
        (⟨mkDate y (m0 : Int) 1 - (getDay (mkDate y (m0 : Int) 1) : Int) + (i : Int),
          false⟩ : CalendarDayCell))
      ++ ((List.range (daysInMonthSpec y m0)).map fun (k : Nat) =>
        (⟨mkDate y (m0 : Int) 1 + (k : Int), true⟩ : CalendarDayCell)))
      ++ ((List.range
            (42 - (getDay (mkDate y (m0 : Int) 1) + daysInMonthSpec y m0))).map fun (i : Nat) =>
        (⟨mkDate y (m0 : Int) 1 + (daysInMonthSpec y m0 : Int) + (i : Int),
          false⟩ : CalendarDayCell)) := by
  have hnext := first_next y m0 h
  unfold getDaysInMonth
  dsimp only
  rw [computed_daysInMonth y m0 h]
  rw [List.length_append, List.length_map, List.length_map, List.length_range,
    List.length_range]
  congr 1
  · congr 1
    · congr 1
      funext i
      congr 1
      rw [mkDate_shift]
      ring
    · congr 1
      funext k
      congr 1
      rw [mkDate_shift]
      ring
  · congr 1
    funext i
    congr 1
    rw [mkDate_shift, hnext]
    ring

theorem getDay_le6 (z : Int) : getDay z ≤ 6 := by
  unfold getDay
  omega

theorem daysInMonthSpec_bounds (y : Int) (m0 : Nat) :
    28 ≤ daysInMonthSpec y m0 ∧ daysInMonthSpec y m0 ≤ 31 :=
  ⟨mdays_ge28 _ _, mdays_le31 _ _⟩

theorem takeWhile_append_all {α : Type} (p : α → Bool) (l1 l2 : List α)
    (h : ∀ a ∈ l1, p a = true) : (l1 ++ l2).takeWhile p = l1 ++ l2.takeWhile p := by
  induction l1 with
  | nil => simp
  | cons a t ih =>
    simp only [List.cons_append, List.takeWhile_cons]
    rw [h a (by simp)]
    simp only [if_true]
    rw [ih (fun x hx => h x (by simp [hx]))]

/-- C1: for every valid year and zero-based month 0-11, the grid builder
returns exactly 42 day cells; being a total function, it has no error
condition on this domain. -/
theorem claim_C1_grid_length (y : Int) (m0 : Nat) (h : m0 ≤ 11) :
    (getDaysInMonth y m0).length = 42 := by
  rw [getDaysInMonth_shape y m0 h]
  have hs : getDay (mkDate y (m0 : Int) 1) ≤ 6 := getDay_le6 _
  have hN := daysInMonthSpec_bounds y m0
  simp only [List.length_append, List.length_map, List.length_range]
  omega

/-- C1 witness at year 2025, month 0. -/
theorem claim_C1_grid_length_witness :
    (0 : Nat) ≤ 11 ∧ (getDaysInMonth 2025 0).length = 42 :=
  ⟨by decide, claim_C1_grid_length 2025 0 (by decide)⟩

/-- C2: the 42 cell dates are consecutive and increasing with no gaps or
overlaps; the leading cells carry the dates immediately before the first
of the month and the trailing cells the dates immediately after its last
day. -/
theorem claim_C2_grid_consecutive (y : Int) (m0 : Nat) (h : m0 ≤ 11) :
    ((getDaysInMonth y m0).map (fun c => c.date)
        = (List.range 42).map fun (i : Nat) =>
            mkDate y (m0 : Int) 1 - (getDay (mkDate y (m0 : Int) 1) : Int) + (i : Int))
    ∧ (((getDaysInMonth y m0).take (getDay (mkDate y (m0 : Int) 1))).map (fun c => c.date)
        = (List.range (getDay (mkDate y (m0 : Int) 1))).map fun (i : Nat) =>
            mkDate y (m0 : Int) 1 - (getDay (mkDate y (m0 : Int) 1) : Int) + (i : Int))
    ∧ (((getDaysInMonth y m0).drop
          (getDay (mkDate y (m0 : Int) 1) + daysInMonthSpec y m0)).map (fun c => c.date)
        = (List.range
            (42 - (getDay (mkDate y (m0 : Int) 1) + daysInMonthSpec y m0))).map
              fun (i : Nat) =>
            mkDate y (m0 : Int) 1 + (daysInMonthSpec y m0 : Int) + (i : Int)) := by
  have hs : getDay (mkDate y (m0 : Int) 1) ≤ 6 := getDay_le6 _
  have hN := daysInMonthSpec_bounds y m0
  rw [getDaysInMonth_shape y m0 h]
  refine ⟨?_, ?_, ?_⟩
  · conv_rhs => rw [show (42 : Nat)
      = getDay (mkDate y (m0 : Int) 1)
        + (daysInMonthSpec y m0
          + (42 - (getDay (mkDate y (m0 : Int) 1) + daysInMonthSpec y m0))) from by omega]
    simp only [List.range_add, List.map_append, List.map_map, List.append_assoc]
    congr 1
    congr 1
    · apply List.map_congr_left
      intro k _
      simp only [Function.comp_apply]
      push_cast
      ring
    · apply List.map_congr_left
      intro i _
      simp only [Function.comp_apply]
      push_cast
      ring
  · rw [List.append_assoc]
    rw [List.take_left' (by simp only [List.length_map, List.length_range])]
    rw [List.map_map]
    congr 1
  · rw [List.drop_left' (by simp only [List.length_append, List.length_map,
      List.length_range])]
    rw [List.map_map]
    congr 1

/-- C2 witness at March 2024. -/
theorem claim_C2_grid_consecutive_witness :
    (2 : Nat) ≤ 11 ∧ ((getDaysInMonth 2024 2).map (fun c => c.date)
      = (List.range 42).map fun (i : Nat) =>
          mkDate 2024 ((2 : Nat) : Int) 1 - (getDay (mkDate 2024 ((2 : Nat) : Int) 1) : Int)
            + (i : Int)) :=
  ⟨by decide, (claim_C2_grid_consecutive 2024 2 (by decide)).1⟩

/-- C3: the cells flagged as belonging to the displayed month number
exactly the month's true day count; the leading run of cells not in the
month has length equal to the weekday index (0 = Sunday) of the first of
the month; March 2024 concretely has 5 leading, 31 current and 6
trailing cells. -/
theorem claim_C3_current_month_count (y : Int) (m0 : Nat) (h : m0 ≤ 11) :
    ((getDaysInMonth y m0).countP (fun c => c.isCurrentMonth) = daysInMonthSpec y m0)
    ∧ (((getDaysInMonth y m0).takeWhile (fun c => !c.isCurrentMonth)).length
        = getDay (mkDate y (m0 : Int) 1))
    ∧ ((getDaysInMonth 2024 2).takeWhile (fun c => !c.isCurrentMonth)).length = 5
    ∧ (getDaysInMonth 2024 2).countP (fun c => c.isCurrentMonth) = 31
    ∧ ((getDaysInMonth 2024 2).drop 36).length = 6
    ∧ (∀ c ∈ (getDaysInMonth 2024 2).drop 36, c.isCurrentMonth = false) := by
  refine ⟨?_, ?_, by decide, by decide, by decide, by decide⟩
  · rw [getDaysInMonth_shape y m0 h]
    simp only [List.countP_append, List.countP_map]
    have e1 : ((fun (c : CalendarDayCell) => c.isCurrentMonth) ∘ fun (i : Nat) =>
        (⟨mkDate y (m0 : Int) 1 - (getDay (mkDate y (m0 : Int) 1) : Int) + (i : Int),
          false⟩ : CalendarDayCell)) = fun _ => false := rfl
    have e2 : ((fun (c : CalendarDayCell) => c.isCurrentMonth) ∘ fun (k : Nat) =>
        (⟨mkDate y (m0 : Int) 1 + (k : Int), true⟩ : CalendarDayCell)) = fun _ => true := rfl
    have e3 : ((fun (c : CalendarDayCell) => c.isCurrentMonth) ∘ fun (i : Nat) =>
        (⟨mkDate y (m0 : Int) 1 + (daysInMonthSpec y m0 : Int) + (i : Int),
          false⟩ : CalendarDayCell)) = fun _ => false := rfl
    rw [e1, e2, e3, List.countP_false, List.countP_true, List.length_range]
    simp
  · rw [getDaysInMonth_shape y m0 h, List.append_assoc]
    rw [takeWhile_append_all _ _ _ (by
      intro a ha
      obtain ⟨i, _, rfl⟩ := List.mem_map.mp ha
      rfl)]
    have hN := daysInMonthSpec_bounds y m0
    obtain ⟨n, hn⟩ : ∃ n, daysInMonthSpec y m0 = n + 1 :=
      ⟨daysInMonthSpec y m0 - 1, by omega⟩
    rw [hn, List.range_succ_eq_map, List.map_cons, List.cons_append, List.takeWhile_cons]
    simp

/-- C3 witness at March 2024. -/
theorem claim_C3_current_month_count_witness :
    (2 : Nat) ≤ 11 ∧ (getDaysInMonth 2024 2).countP (fun c => c.isCurrentMonth)
      = daysInMonthSpec 2024 2 :=
  ⟨by decide, (claim_C3_current_month_count 2024 2 (by decide)).1⟩

theorem digitChar_toNat (k : Nat) : (digitChar k).toNat = 48 + k % 10 := by
  have h : ∀ j : Fin 10, (Char.ofNat (48 + j.val)).toNat = 48 + j.val := by decide
  exact h ⟨k % 10, Nat.mod_lt _ (by norm_num)⟩

theorem decVal_append_last (l : List Char) (c : Char) :
    decVal (l ++ [c]) = 10 * decVal l + (c.toNat - 48) := by
  unfold decVal
  rw [List.foldl_append]
  rfl

theorem decVal_digitsBE : ∀ fuel n : Nat, n ≤ fuel → decVal (digitsBE fuel n) = n := by
  intro fuel
  induction fuel with
  | zero =>
    intro n h
    have hn : n = 0 := by omega
    subst hn
    rfl
  | succ f ih =>
    intro n h
    by_cases h0 : n = 0
    · subst h0
      rfl
    · have hstep : digitsBE (f + 1) n = digitsBE f (n / 10) ++ [digitChar (n % 10)] := by
        simp [digitsBE, h0]
      rw [hstep, decVal_append_last, ih (n / 10) (by omega), digitChar_toNat]
      omega

theorem digitsBE_length_le : ∀ fuel n w : Nat, n ≤ fuel → n < 10 ^ w →
    (digitsBE fuel n).length ≤ w := by
  intro fuel
  induction fuel with
  | zero =>
    intro n w h hw
    have hn : n = 0 := by omega
    subst hn
    simp [digitsBE]
  | succ f ih =>
    intro n w h hw
    by_cases h0 : n = 0
    · subst h0
      simp [digitsBE]
    · have hstep : digitsBE (f + 1) n = digitsBE f (n / 10) ++ [digitChar (n % 10)] := by
        simp [digitsBE, h0]
      have hw0 : w ≠ 0 := by
        intro hw0
        subst hw0
        simp at hw
        omega
      obtain ⟨v, hv⟩ : ∃ v, w = v + 1 := ⟨w - 1, by omega⟩
      subst hv
      have hlt : n / 10 < 10 ^ v := by
        rw [pow_succ] at hw
        exact Nat.div_lt_of_lt_mul (by omega)
      have := ih (n / 10) v (by omega) hlt
      rw [hstep]
      simp only [List.length_append, List.length_cons, List.length_nil]
      omega

theorem decVal_replicate_zero (k : Nat) (l : List Char) :
    decVal (List.replicate k '0' ++ l) = decVal l := by
  unfold decVal
  rw [List.foldl_append]
  have haux : ∀ j : Nat, List.foldl (fun a c => 10 * a + (c.toNat - 48)) 0
      (List.replicate j '0') = 0 := by
    intro j
    induction j with
    | zero => rfl
    | succ j ih =>
      rw [List.replicate_succ, List.foldl_cons]
      exact ih
  rw [haux]

theorem decVal_padDigits (w n : Nat) : decVal (padDigits w n) = n := by
  unfold padDigits
  rw [decVal_replicate_zero]
  exact decVal_digitsBE n n le_rfl

theorem padDigits_length (w n : Nat) (h : n < 10 ^ w) : (padDigits w n).length = w := by
  unfold padDigits
  rw [List.length_append, List.length_replicate]
  have := digitsBE_length_le n n w le_rfl h
  omega

theorem digitsBE_mem_range : ∀ fuel n : Nat, ∀ c : Char, c ∈ digitsBE fuel n →
    48 ≤ c.toNat ∧ c.toNat ≤ 57 := by
  intro fuel
  induction fuel with
  | zero =>
    intro n c hc
    simp [digitsBE] at hc
  | succ f ih =>
    intro n c hc
    by_cases h0 : n = 0
    · subst h0
      simp [digitsBE] at hc
    · have hstep : digitsBE (f + 1) n = digitsBE f (n / 10) ++ [digitChar (n % 10)] := by
        simp [digitsBE, h0]
      rw [hstep, List.mem_append] at hc
      rcases hc with hc | hc
      · exact ih _ c hc
      · simp at hc
        subst hc
        rw [digitChar_toNat]
        omega

theorem padDigits_mem_range (w n : Nat) (c : Char) (hc : c ∈ padDigits w n) :
    48 ≤ c.toNat ∧ c.toNat ≤ 57 := by
  unfold padDigits at hc
  rw [List.mem_append] at hc
  rcases hc with hc | hc
  · have := List.eq_of_mem_replicate hc
    subst this
    exact ⟨by decide, by decide⟩
  · exact digitsBE_mem_range n n c hc

theorem padDigits_inj (w n1 n2 : Nat) (h : padDigits w n1 = padDigits w n2) : n1 = n2 := by
  have h1 := decVal_padDigits w n1
  have h2 := decVal_padDigits w n2
  rw [h] at h1
  omega

theorem padDigits_ne_sign (w n : Nat) (c : Char) (hc : c.toNat < 48) (l : List Char) :
    padDigits w n ≠ c :: l := by
  intro he
  have hmem : c ∈ padDigits w n := by
    rw [he]
    exact List.mem_cons_self c l
  have := padDigits_mem_range w n c hmem
  omega

theorem yearChars_inj (y1 y2 : Int)
    (h : (if 0 ≤ y1 ∧ y1 < 10000 then padDigits 4 y1.toNat
          else if y1 < 0 then '-' :: padDigits 6 (-y1).toNat
          else '+' :: padDigits 6 y1.toNat)
        = (if 0 ≤ y2 ∧ y2 < 10000 then padDigits 4 y2.toNat
          else if y2 < 0 then '-' :: padDigits 6 (-y2).toNat
          else '+' :: padDigits 6 y2.toNat)) : y1 = y2 := by
  split_ifs at h
  all_goals
    first
    | (have hpi := padDigits_inj _ _ _ h; omega)
    | (exact absurd h (padDigits_ne_sign _ _ _ (by decide) _))
    | (exact absurd h.symm (padDigits_ne_sign _ _ _ (by decide) _))
    | (injection h with hh ht
       first
       | exact absurd hh (by decide)
       | (have hpi := padDigits_inj _ _ _ ht; omega))

/-- The normalised date key determines the day number: two distinct day
numbers always produce distinct `YYYY-MM-DD` keys. -/
theorem toISODate_inj (z1 z2 : Int) (h : toISODate z1 = toISODate z2) : z1 = z2 := by
  have hl : isoChars z1 = isoChars z2 := congrArg String.data h
  have hb1 := civil_bounds z1
  have hb2 := civil_bounds z2
  have h100 : (10 : Nat) ^ 2 = 100 := by norm_num
  have hm1 : (padDigits 2 (monthOfDays z1)).length = 2 := padDigits_length 2 _ (by omega)
  have hm2 : (padDigits 2 (monthOfDays z2)).length = 2 := padDigits_length 2 _ (by omega)
  have hd1 : (padDigits 2 (dayOfDays z1)).length = 2 := padDigits_length 2 _ (by omega)
  have hd2 : (padDigits 2 (dayOfDays z2)).length = 2 := padDigits_length 2 _ (by omega)
  unfold isoChars at hl
  have hsplit := List.append_inj' hl (by
    simp only [List.length_cons, List.length_append, hm1, hm2, hd1, hd2])
  obtain ⟨hY, hT⟩ := hsplit
  have hy_eq : yearOfDays z1 = yearOfDays z2 := yearChars_inj _ _ hY
  injection hT with hdash hT2
  have hsplit2 := List.append_inj' hT2 (by
    simp only [List.length_cons, hd1, hd2])
  obtain ⟨hM, hD'⟩ := hsplit2
  injection hD' with hdash2 hD
  have hm_eq : monthOfDays z1 = monthOfDays z2 := padDigits_inj 2 _ _ hM
  have hd_eq : dayOfDays z1 = dayOfDays z2 := padDigits_inj 2 _ _ hD
  have h1 := civil_inv z1
  have h2 := civil_inv z2
  rw [hy_eq, hm_eq, hd_eq] at h1
  omega

/-- C4: the task-to-day association returns exactly the tasks whose due
date string-equals the normalised date key of the cell; a task with due
date key of `d1` appears for the cell dated `d1` and for no other cell,
and a task without a due date appears for no cell. -/
theorem claim_C4_tasks_for_date (tasks : List Task) (t : Task) (d1 d2 : Int) :
    (t ∈ getTasksForDate tasks d1 ↔ t ∈ tasks ∧ t.due_date = some (toISODate d1))
    ∧ (t.due_date = some (toISODate d1) → d2 ≠ d1 → t ∉ getTasksForDate tasks d2)
    ∧ (t.due_date = none → t ∉ getTasksForDate tasks d1) := by
  refine ⟨?_, ?_, ?_⟩
  · unfold getTasksForDate
    rw [List.mem_filter]
    constructor
    · rintro ⟨h1, h2⟩
      rw [beq_iff_eq] at h2
      exact ⟨h1, h2⟩
    · rintro ⟨h1, h2⟩
      exact ⟨h1, by rw [beq_iff_eq]; exact h2⟩
  · intro hdue hne hmem
    unfold getTasksForDate at hmem
    rw [List.mem_filter, beq_iff_eq] at hmem
    have heq : some (toISODate d1) = some (toISODate d2) := hdue.symm.trans hmem.2
    injection heq with heq2
    exact hne (toISODate_inj d2 d1 heq2.symm)
  · intro hnone hmem
    unfold getTasksForDate at hmem
    rw [List.mem_filter, beq_iff_eq] at hmem
    rw [hnone] at hmem
    exact Option.noConfusion hmem.2

/-- C4 witness: the spec's scenario task due `2024-03-15` is associated
with the cell dated 2024-03-15 and not with the one dated 2024-03-16. -/
theorem claim_C4_tasks_for_date_witness :
    ((⟨"1", "Report", none, "medium", "todo", some "2024-03-15"⟩ : Task)
        ∈ getTasksForDate [⟨"1", "Report", none, "medium", "todo", some "2024-03-15"⟩]
            (mkDate 2024 ((2 : Nat) : Int) 15))
    ∧ ((⟨"1", "Report", none, "medium", "todo", some "2024-03-15"⟩ : Task)
        ∉ getTasksForDate [⟨"1", "Report", none, "medium", "todo", some "2024-03-15"⟩]
            (mkDate 2024 ((2 : Nat) : Int) 16)) := by
  constructor
  · exact (claim_C4_tasks_for_date
        [⟨"1", "Report", none, "medium", "todo", some "2024-03-15"⟩]
        ⟨"1", "Report", none, "medium", "todo", some "2024-03-15"⟩
        (mkDate 2024 ((2 : Nat) : Int) 15)
        (mkDate 2024 ((2 : Nat) : Int) 16)).1.mpr ⟨by simp, by decide⟩
  · exact (claim_C4_tasks_for_date
        [⟨"1", "Report", none, "medium", "todo", some "2024-03-15"⟩]
        ⟨"1", "Report", none, "medium", "todo", some "2024-03-15"⟩
        (mkDate 2024 ((2 : Nat) : Int) 15)
        (mkDate 2024 ((2 : Nat) : Int) 16)).2.1 (by decide) (by decide)

/-- C5: evaluation of `navigateMonth` at the state displaying
2025-01-31.  JavaScript `setMonth` keeps the day of month, so stepping
forward from January 31 lands on February 31 = March 3: the displayed
month index jumps from 0 (January) to 2 (March), not to 1 (February) as
the claim requires. -/
theorem claim_C5_navigate_month_overflow :
    getFullYear (mkDate 2025 0 31) = 2025
    ∧ getMonth (mkDate 2025 0 31) = 0
    ∧ getDate (mkDate 2025 0 31) = 31
    ∧ navigateMonth (mkDate 2025 0 31) 1 = mkDate 2025 2 3
    ∧ getMonth (navigateMonth (mkDate 2025 0 31) 1) = 2 := by
  decide

/-- C6: the dashboard refresh is all-or-nothing: if any of the three
responses fails, all three displayed pieces keep their previous values;
if all three succeed, all three are replaced by the fetched data. -/
theorem claim_C6_dashboard_all_or_nothing (st : DashboardState)
    (rs : Except String DashboardStats) (rr ru : Except String (List Task)) :
    ((rs.isOk = false ∨ rr.isOk = false ∨ ru.isOk = false) →
      (fetchDashboardData st rs rr ru).stats = st.stats
      ∧ (fetchDashboardData st rs rr ru).recentTasks = st.recentTasks
      ∧ (fetchDashboardData st rs rr ru).upcomingTasks = st.upcomingTasks)
    ∧ (∀ s r u, rs = Except.ok s → rr = Except.ok r → ru = Except.ok u →
      fetchDashboardData st rs rr ru = ⟨s, r, u, false⟩) := by
  constructor
  · intro hfail
    cases rs <;> cases rr <;> cases ru <;>
      first
      | exact ⟨rfl, rfl, rfl⟩
      | simp [Except.isOk, Except.toBool] at hfail
  · intro s r u hs hr hu
    subst hs
    subst hr
    subst hu
    rfl

/-- C6 witness: one failing response leaves the stats untouched. -/
theorem claim_C6_dashboard_all_or_nothing_witness :
    (Except.isOk (Except.error "boom" : Except String DashboardStats) = false)
    ∧ (fetchDashboardData ⟨⟨1, 2, 3, 4, 5⟩, [], [], true⟩
        (Except.error "boom") (Except.ok []) (Except.ok [])).stats = ⟨1, 2, 3, 4, 5⟩ :=
  ⟨rfl, ((claim_C6_dashboard_all_or_nothing ⟨⟨1, 2, 3, 4, 5⟩, [], [], true⟩
      (Except.error "boom") (Except.ok []) (Except.ok [])).1 (Or.inl rfl)).1⟩

/-- C7: when the title trims to the empty string, task creation sends no
request, changes no state and triggers no refetch, whatever the other
fields and the response would have been. -/
theorem claim_C7_empty_title_rejected (st : CalendarState) (response : Except String Unit)
    (h : trimString st.newTask.title = "") :
    createTask st response = (none, st, false) := by
  unfold createTask
  rw [if_pos (Or.inl h)]

/-- C7 witness: a whitespace-only title with a selected date and filled
fields produces no request and no state change. -/
theorem claim_C7_empty_title_rejected_witness :
    (trimString (⟨"  ", "desc", "high"⟩ : NewTaskForm).title = "")
    ∧ createTask ⟨0, [], some 0, true, ⟨"  ", "desc", "high"⟩⟩ (Except.ok ())
        = (none, ⟨0, [], some 0, true, ⟨"  ", "desc", "high"⟩⟩, false) :=
  ⟨by decide, claim_C7_empty_title_rejected ⟨0, [], some 0, true, ⟨"  ", "desc", "high"⟩⟩
      (Except.ok ()) (by decide)⟩

/-- C8: with a nonempty title and a selected date, a failed creation
request leaves the whole state unchanged (modal open, form kept,
selected date kept) and triggers no refetch; a successful one resets
the form, dismisses the modal, clears the selected date and triggers
the refetch. -/
theorem claim_C8_create_failure_keeps_state (st : CalendarState) (sel : Int) (e : String)
    (ht : trimString st.newTask.title ≠ "") (hs : st.selectedDate = some sel) :
    createTask st (Except.error e)
      = (some ⟨st.newTask.title, st.newTask.description, st.newTask.priority, toISODate sel⟩,
         st, false)
    ∧ createTask st (Except.ok ())
      = (some ⟨st.newTask.title, st.newTask.description, st.newTask.priority, toISODate sel⟩,
         { st with newTask := initialNewTask, showTaskModal := false, selectedDate := none },
         true) := by
  have hcond : ¬(trimString st.newTask.title = "" ∨ st.selectedDate = none) := by
    rintro (hc | hc)
    · exact ht hc
    · rw [hs] at hc
      exact Option.noConfusion hc
  constructor <;>
    (unfold createTask
     rw [if_neg hcond, hs])

/-- C8 witness: concrete failing and succeeding creation at a filled
form. -/
theorem claim_C8_create_failure_keeps_state_witness :
    (trimString "Report" ≠ "")
    ∧ createTask ⟨0, [], some 0, true, ⟨"Report", "", "medium"⟩⟩ (Except.error "boom")
      = (some ⟨"Report", "", "medium", toISODate 0⟩,
         ⟨0, [], some 0, true, ⟨"Report", "", "medium"⟩⟩, false) :=
  ⟨by decide, (claim_C8_create_failure_keeps_state
      ⟨0, [], some 0, true, ⟨"Report", "", "medium"⟩⟩ 0 "boom" (by decide) rfl).1⟩

/-- C9: at most 3 tasks are rendered per day cell; with more than 3, the
first 3 are rendered and the overflow count shows the remainder; with at
most 3, all are rendered and no count is shown. -/
theorem claim_C9_day_cell_display (dayTasks : List Task) :
    (visibleDayTasks dayTasks).length ≤ 3
    ∧ visibleDayTasks dayTasks = dayTasks.take 3
    ∧ (dayTasks.length > 3 →
        visibleDayTasks dayTasks = dayTasks.take 3
        ∧ overflowCount dayTasks = some (dayTasks.length - 3))
    ∧ (dayTasks.length ≤ 3 →
        visibleDayTasks dayTasks = dayTasks ∧ overflowCount dayTasks = none) := by
  refine ⟨?_, rfl, fun h => ⟨rfl, ?_⟩, fun h => ⟨?_, ?_⟩⟩
  · unfold visibleDayTasks
    rw [List.length_take]
    omega
  · unfold overflowCount
    rw [if_pos h]
  · unfold visibleDayTasks
    exact List.take_of_length_le h
  · unfold overflowCount
    rw [if_neg (by omega)]

/-- C9 witness: four identical tasks render as three plus a `+1` count. -/
theorem claim_C9_day_cell_display_witness :
    ([(⟨"", "", none, "", "", none⟩ : Task), ⟨"", "", none, "", "", none⟩,
      ⟨"", "", none, "", "", none⟩, ⟨"", "", none, "", "", none⟩].length > 3)
    ∧ overflowCount [(⟨"", "", none, "", "", none⟩ : Task), ⟨"", "", none, "", "", none⟩,
      ⟨"", "", none, "", "", none⟩, ⟨"", "", none, "", "", none⟩]
      = some ([(⟨"", "", none, "", "", none⟩ : Task), ⟨"", "", none, "", "", none⟩,
        ⟨"", "", none, "", "", none⟩, ⟨"", "", none, "", "", none⟩].length - 3) :=
  ⟨by decide, ((claim_C9_day_cell_display
      [⟨"", "", none, "", "", none⟩, ⟨"", "", none, "", "", none⟩,
       ⟨"", "", none, "", "", none⟩, ⟨"", "", none, "", "", none⟩]).2.2.1 (by decide)).2⟩

/-- C10: clicking a cell outside the displayed month is a no-op (state
unchanged, modal closed, selected date kept); clicking a cell of the
displayed month opens the modal with that date selected and changes
nothing else. -/
theorem claim_C10_other_month_click_noop (st : CalendarState) (day : CalendarDayCell) :
    (day.isCurrentMonth = false → handleDateClick st day = st)
    ∧ (day.isCurrentMonth = true → handleDateClick st day
        = { st with selectedDate := some day.date, showTaskModal := true }) := by
  constructor <;>
    (intro h
     unfold handleDateClick
     rw [h]
     rfl)

/-- C10 witness: a click on a trailing cell changes nothing. -/
theorem claim_C10_other_month_click_noop_witness :
    ((⟨0, false⟩ : CalendarDayCell).isCurrentMonth = false)
    ∧ handleDateClick ⟨0, [], none, false, ⟨"", "", "medium"⟩⟩ ⟨0, false⟩
      = ⟨0, [], none, false, ⟨"", "", "medium"⟩⟩ :=
  ⟨rfl, (claim_C10_other_month_click_noop ⟨0, [], none, false, ⟨"", "", "medium"⟩⟩
      ⟨0, false⟩).1 rfl⟩

end TaskHub
